import Mathlib

/-
Verification development for the LocalEats multi-agent restaurant
recommendation pipeline (Streamlit / Snowflake app).

Python text values are embedded as lists of character codes
(`List Nat`), so that the string manipulation done by the source
(strip, lower, title, replace, regex-like searches) is executable and
provable.  Each definition below is a direct translation of a function
in `src/app`, named after it where Lean allows.
-/

/-- Character codes of a Lean string literal, used to write down the
Python string values appearing in the source and in test inputs. -/
def pycodes (s : String) : List Nat := s.data.map Char.toNat

/-- Python `str.isspace` on a single character code, restricted to the
whitespace characters `str.strip` removes: space, tab, LF, VT, FF, CR. -/
def isSpaceCode (c : Nat) : Bool :=
  decide (c = 32 ∨ c = 9 ∨ c = 10 ∨ c = 11 ∨ c = 12 ∨ c = 13)

/-- ASCII decimal digit test (`\d` in the score-parsing regexes). -/
def isDigitCode (c : Nat) : Bool := decide (48 ≤ c ∧ c ≤ 57)

/-- ASCII letter test (the cased characters relevant to `str.title`). -/
def isAlphaCode (c : Nat) : Bool :=
  decide ((65 ≤ c ∧ c ≤ 90) ∨ (97 ≤ c ∧ c ≤ 122))

/-- Word-character test (`\b` boundaries in the regexes): letters,
digits and underscore. -/
def isWordCode (c : Nat) : Bool :=
  decide ((65 ≤ c ∧ c ≤ 90) ∨ (97 ≤ c ∧ c ≤ 122) ∨ (48 ≤ c ∧ c ≤ 57) ∨ c = 95)

/-- `str.lower` on one character code (ASCII). -/
def lowerCode (c : Nat) : Nat := if 65 ≤ c ∧ c ≤ 90 then c + 32 else c

/-- `str.upper` on one character code (ASCII). -/
def upperCode (c : Nat) : Nat := if 97 ≤ c ∧ c ≤ 122 then c - 32 else c

/-- Python `str.lower`. -/
def lowerCodes (s : List Nat) : List Nat := s.map lowerCode

/-- Right-trim of trailing whitespace, the tail half of `str.strip`. -/
def trimRight : List Nat → List Nat
  | [] => []
  | c :: rest =>
    if trimRight rest = [] ∧ isSpaceCode c then [] else c :: trimRight rest

/-- Python `str.strip` (with no argument): drop leading and trailing
whitespace. -/
def stripCodes (s : List Nat) : List Nat := trimRight (s.dropWhile isSpaceCode)

/-- Python `str.replace` of a single quote (code 39) by two single
quotes, the escaping idiom used throughout the source
(`x.replace CHR39 CHR39CHR39` with CHR39 the apostrophe). -/
def escapeQuotes (s : List Nat) : List Nat :=
  s.flatMap (fun c => if c = 39 then [39, 39] else [c])

/-- Python `str.title` (ASCII): uppercase every letter that does not
follow a letter, lowercase every letter that does. -/
def titleAux (prevAlpha : Bool) : List Nat → List Nat
  | [] => []
  | c :: rest =>
    (if isAlphaCode c then (if prevAlpha then lowerCode c else upperCode c) else c)
      :: titleAux (isAlphaCode c) rest

/-- Python `str.title` entry point. -/
def titleCodes (s : List Nat) : List Nat := titleAux false s

/-- Decimal digit codes of a natural number (fuel-based so that it
reduces in the kernel); models `str(int)` for nonnegative values. -/
def natCodesAux : Nat → Nat → List Nat
  | 0, _ => []
  | f + 1, n =>
    if n < 10 then [48 + n] else natCodesAux f (n / 10) ++ [48 + n % 10]

/-- `str(n)` for a natural number. -/
def natCodes (n : Nat) : List Nat := natCodesAux (n + 1) n

/-- `str(n)` for a Python integer. -/
def intCodes (n : Int) : List Nat :=
  if n < 0 then 45 :: natCodes (-n).toNat else natCodes n.toNat

/-- `str(b)` for a Python boolean. -/
def boolCodes (b : Bool) : List Nat :=
  if b then pycodes "True" else pycodes "False"

/-- Substring test at the head of the list: does `needle` start here? -/
def isPrefixN : List Nat → List Nat → Bool
  | [], _ => true
  | _ :: _, [] => false
  | a :: as, b :: bs => a = b && isPrefixN as bs

/-- Python `needle in hay` on strings: substring containment. -/
def containsSeq (needle : List Nat) : List Nat → Bool
  | [] => isPrefixN needle []
  | hay@(_ :: t) => isPrefixN needle hay || containsSeq needle t

/-- Insertion of one element into a list ordered by the boolean
relation `le`; helper for the sorting model. -/
def insertOrd (le : α → α → Bool) (a : α) : List α → List α
  | [] => [a]
  | b :: bs => if le a b then a :: b :: bs else b :: insertOrd le a bs

/-- Executable sorting model for the `sort_values` / `ORDER BY` steps
of the pipeline (insertion sort; only the multiset of rows and the
length are relied on by the claims). -/
def sortOrd (le : α → α → Bool) : List α → List α
  | [] => []
  | a :: as => insertOrd le a (sortOrd le as)

-- ---------------------------------------------------------------------------
-- Basic lemmas about the text utilities
-- ---------------------------------------------------------------------------

theorem lowerCode_idem (c : Nat) : lowerCode (lowerCode c) = lowerCode c := by
  unfold lowerCode
  split_ifs with h1 h2
  · omega
  · rfl
  · rfl

theorem isSpaceCode_lowerCode (c : Nat) :
    isSpaceCode (lowerCode c) = isSpaceCode c := by
  unfold lowerCode isSpaceCode
  split_ifs with h
  · rw [decide_eq_decide]; omega
  · rfl

theorem lowerCodes_idem (s : List Nat) :
    lowerCodes (lowerCodes s) = lowerCodes s := by
  unfold lowerCodes
  rw [List.map_map]
  exact List.map_congr_left (fun c _ => lowerCode_idem c)

theorem dropWhile_space_lower (s : List Nat) :
    (lowerCodes s).dropWhile isSpaceCode = lowerCodes (s.dropWhile isSpaceCode) := by
  unfold lowerCodes
  have hf : isSpaceCode ∘ lowerCode = isSpaceCode :=
    funext fun c => isSpaceCode_lowerCode c
  rw [List.dropWhile_map, hf]

theorem trimRight_lower (s : List Nat) :
    trimRight (lowerCodes s) = lowerCodes (trimRight s) := by
  induction s with
  | nil => rfl
  | cons c rest ih =>
    show trimRight (lowerCode c :: lowerCodes rest) = _
    unfold trimRight
    rw [ih, isSpaceCode_lowerCode]
    by_cases hr : trimRight rest = []
    · by_cases hs : isSpaceCode c = true
      · simp [hr, hs, lowerCodes]
      · simp [hr, hs, lowerCodes]
    · have hr2 : lowerCodes (trimRight rest) ≠ [] := by
        simpa [lowerCodes] using hr
      simp [hr, hr2, lowerCodes]

theorem stripCodes_lower (s : List Nat) :
    stripCodes (lowerCodes s) = lowerCodes (stripCodes s) := by
  unfold stripCodes
  rw [dropWhile_space_lower, trimRight_lower]

/-- `trimRight` returns a prefix of its input. -/
theorem trimRight_isPrefix (s : List Nat) : (trimRight s).IsPrefix s := by
  induction s with
  | nil => exact List.prefix_refl _
  | cons c rest ih =>
    show (if trimRight rest = [] ∧ isSpaceCode c then [] else c :: trimRight rest).IsPrefix
      (c :: rest)
    split_ifs with h
    · exact List.nil_prefix
    · exact List.cons_prefix_cons.mpr ⟨rfl, ih⟩

theorem trimRight_idem (s : List Nat) : trimRight (trimRight s) = trimRight s := by
  induction s with
  | nil => rfl
  | cons c rest ih =>
    show trimRight (if trimRight rest = [] ∧ isSpaceCode c then [] else c :: trimRight rest)
      = (if trimRight rest = [] ∧ isSpaceCode c then [] else c :: trimRight rest)
    split_ifs with h
    · rfl
    · show (if trimRight (trimRight rest) = [] ∧ isSpaceCode c then []
        else c :: trimRight (trimRight rest)) = c :: trimRight rest
      rw [ih, if_neg h]

/-- The head of a `dropWhile isSpaceCode` result is not whitespace. -/
theorem dropWhile_space_head (s : List Nat) (c : Nat) (t : List Nat)
    (h : s.dropWhile isSpaceCode = c :: t) : isSpaceCode c = false := by
  induction s with
  | nil => simp at h
  | cons a as ih =>
    rw [List.dropWhile_cons] at h
    split_ifs at h with ha
    · exact ih h
    · cases h
      simpa using ha

theorem dropWhile_space_idem (s : List Nat) :
    (s.dropWhile isSpaceCode).dropWhile isSpaceCode = s.dropWhile isSpaceCode := by
  cases hd : s.dropWhile isSpaceCode with
  | nil => rfl
  | cons c t =>
    rw [List.dropWhile_cons, dropWhile_space_head s c t hd]
    simp

theorem stripCodes_idem (s : List Nat) :
    stripCodes (stripCodes s) = stripCodes s := by
  unfold stripCodes
  set X := s.dropWhile isSpaceCode with hX
  have hdrop : (trimRight X).dropWhile isSpaceCode = trimRight X := by
    cases htr : trimRight X with
    | nil => rfl
    | cons c t =>
      have hpre : (c :: t).IsPrefix X := htr ▸ trimRight_isPrefix X
      obtain ⟨u, hu⟩ := hpre
      have hXc : X = c :: (t ++ u) := by rw [← hu]; simp
      have hc : isSpaceCode c = false := by
        apply dropWhile_space_head s c (t ++ u)
        rw [← hX, hXc]
      rw [List.dropWhile_cons, hc]
      simp
  rw [hdrop, trimRight_idem]

theorem noSpace_dropWhile_eq_self (s : List Nat)
    (h : ∀ c ∈ s, isSpaceCode c = false) : s.dropWhile isSpaceCode = s := by
  cases s with
  | nil => rfl
  | cons c t =>
    rw [List.dropWhile_cons, h c (by simp)]
    simp

theorem noSpace_trimRight_eq_self (s : List Nat)
    (h : ∀ c ∈ s, isSpaceCode c = false) : trimRight s = s := by
  induction s with
  | nil => rfl
  | cons c t ih =>
    show (if trimRight t = [] ∧ isSpaceCode c then [] else c :: trimRight t) = c :: t
    rw [ih (fun x hx => h x (by simp [hx]))]
    split_ifs with h2
    · exact absurd h2.2 (by simp [h c (by simp)])
    · rfl

theorem noSpace_stripCodes_eq_self (s : List Nat)
    (h : ∀ c ∈ s, isSpaceCode c = false) : stripCodes s = s := by
  unfold stripCodes
  rw [noSpace_dropWhile_eq_self s h, noSpace_trimRight_eq_self s h]

theorem insertOrd_length (le : α → α → Bool) (a : α) (l : List α) :
    (insertOrd le a l).length = l.length + 1 := by
  induction l with
  | nil => rfl
  | cons b bs ih =>
    unfold insertOrd
    split_ifs with h
    · rfl
    · simp [ih]

theorem sortOrd_length (le : α → α → Bool) (l : List α) :
    (sortOrd le l).length = l.length := by
  induction l with
  | nil => rfl
  | cons a as ih =>
    unfold sortOrd
    rw [insertOrd_length, ih]
    rfl

-- ---------------------------------------------------------------------------
-- Filter payload values (JSON values produced by the model or the UI)
-- ---------------------------------------------------------------------------

/-- An element of a JSON list arriving in a filter slot.  Filter lists
hold scalar tokens, so list elements are modelled as scalars. -/
inductive PyAtom where
  | anone : PyAtom
  | astr (s : List Nat) : PyAtom
  | aint (n : Int) : PyAtom
  | abool (b : Bool) : PyAtom
deriving DecidableEq, Repr

/-- A JSON value sitting in one filter slot: null, a string, a list,
or another scalar (number / boolean) hitting the fallback branch of
`_ensure_list`. -/
inductive PyVal where
  | pnone : PyVal
  | pstr (s : List Nat) : PyVal
  | plist (xs : List PyAtom) : PyVal
  | pint (n : Int) : PyVal
  | pbool (b : Bool) : PyVal
deriving DecidableEq, Repr

/-- `str(a)` for a scalar JSON value. -/
def atomStr : PyAtom → List Nat
  | .anone => pycodes "None"
  | .astr s => s
  | .aint n => intCodes n
  | .abool b => boolCodes b

/-- `_ensure_list` (identical in `agents/orchestrator.py` and
`agents/researcher.py`): convert None / str / list / other into a
clean list of stripped lowercased strings. -/
def ensureList : PyVal → List (List Nat)
  | .pnone => []
  | .plist xs =>
    xs.filterMap fun a =>
      if stripCodes (atomStr a) = [] then none
      else some (lowerCodes (stripCodes (atomStr a)))
  | .pstr s => if stripCodes s = [] then [] else [lowerCodes (stripCodes s)]
  | .pint n => [lowerCodes (stripCodes (intCodes n))]
  | .pbool b => [lowerCodes (stripCodes (boolCodes b))]

/-- A raw `filters` mapping as received from the model or the UI.
`none` marks an absent key; `some v` a present key whose value is `v`
(possibly null).  The five canonical FilterSet keys plus the two
legacy alias keys `service` and `special` are the only keys the
source ever reads. -/
structure RawFilters where
  dietary : Option PyVal
  meal_time : Option PyVal
  accessibility : Option PyVal
  service_type : Option PyVal
  special_needs : Option PyVal
  service : Option PyVal
  special : Option PyVal
deriving DecidableEq, Repr

/-- The raw mapping with no keys, i.e. the Python empty dict. -/
def emptyRaw : RawFilters := ⟨none, none, none, none, none, none, none⟩

/-- Python truthiness of a dict: `not attribute_filters` is true when
the dict is empty (all keys absent). -/
def isEmptyRaw (r : RawFilters) : Bool :=
  r.dietary.isNone && r.meal_time.isNone && r.accessibility.isNone &&
    r.service_type.isNone && r.special_needs.isNone && r.service.isNone &&
    r.special.isNone

/-- The canonical five-slot FilterSet produced by the normalizers. -/
structure FilterSet where
  dietary : List (List Nat)
  meal_time : List (List Nat)
  accessibility : List (List Nat)
  service_type : List (List Nat)
  special_needs : List (List Nat)
deriving DecidableEq, Repr

/-- The empty FilterSet. -/
def emptyFS : FilterSet := ⟨[], [], [], [], []⟩

/-- Python `d.get(primary, d.get(alias))`: the primary key wins when
present (even with a null value), else the alias value, else None. -/
def pyGet2 (primary fallbackKey : Option PyVal) : PyVal :=
  match primary with
  | some v => v
  | none =>
    match fallbackKey with
    | some w => w
    | none => .pnone

/-- `_normalize_filters` from `agents/orchestrator.py`: `filters` may
be absent (None); each slot goes through `_ensure_list`, with the
legacy keys `service` / `special` consulted via `dict.get` defaults. -/
def normalizeFilters (filters : Option RawFilters) : FilterSet :=
  let fl := filters.getD emptyRaw
  { dietary := ensureList (fl.dietary.getD .pnone)
    meal_time := ensureList (fl.meal_time.getD .pnone)
    accessibility := ensureList (fl.accessibility.getD .pnone)
    service_type := ensureList (pyGet2 fl.service_type fl.service)
    special_needs := ensureList (pyGet2 fl.special_needs fl.special) }

/-- Python truthiness of the optional dict argument: `not attribute_filters`
holds when the argument is None or the empty dict. -/
def pyFalsyRaw (f : Option RawFilters) : Bool :=
  match f with
  | none => true
  | some r => isEmptyRaw r

/-- `_normalize_attribute_filters` from `agents/researcher.py`: early
return on a falsy argument, the same slot handling as the
orchestrator, then a backfill of `service_type` / `special_needs`
from the legacy keys when the canonical result came out empty. -/
def normalizeAttributeFilters (f : Option RawFilters) : FilterSet :=
  if pyFalsyRaw f then ⟨[], [], [], [], []⟩
  else
    { dietary := ensureList ((f.getD emptyRaw).dietary.getD .pnone)
      meal_time := ensureList ((f.getD emptyRaw).meal_time.getD .pnone)
      accessibility := ensureList ((f.getD emptyRaw).accessibility.getD .pnone)
      service_type :=
        if (f.getD emptyRaw).service.isSome ∧
            ensureList (pyGet2 (f.getD emptyRaw).service_type (f.getD emptyRaw).service) = []
        then ensureList ((f.getD emptyRaw).service.getD .pnone)
        else ensureList (pyGet2 (f.getD emptyRaw).service_type (f.getD emptyRaw).service)
      special_needs :=
        if (f.getD emptyRaw).special.isSome ∧
            ensureList (pyGet2 (f.getD emptyRaw).special_needs (f.getD emptyRaw).special) = []
        then ensureList ((f.getD emptyRaw).special.getD .pnone)
        else ensureList (pyGet2 (f.getD emptyRaw).special_needs (f.getD emptyRaw).special) }

/-- Re-injection of a FilterSet into the raw-mapping type, for stating
idempotence: a normalized FilterSet is a mapping whose five canonical
keys hold lists of strings and whose legacy keys are absent. -/
def rawOfFS (fs : FilterSet) : RawFilters :=
  ⟨some (.plist (fs.dietary.map .astr)),
   some (.plist (fs.meal_time.map .astr)),
   some (.plist (fs.accessibility.map .astr)),
   some (.plist (fs.service_type.map .astr)),
   some (.plist (fs.special_needs.map .astr)),
   none, none⟩

/-- A clean token as emitted by `_ensure_list`: non-empty, already
stripped, already lowercased. -/
def normTok (t : List Nat) : Prop :=
  t ≠ [] ∧ stripCodes t = t ∧ lowerCodes t = t

/-- All five slots of a FilterSet hold only clean tokens. -/
def wellFormedFS (fs : FilterSet) : Prop :=
  (∀ t ∈ fs.dietary, normTok t) ∧ (∀ t ∈ fs.meal_time, normTok t) ∧
    (∀ t ∈ fs.accessibility, normTok t) ∧ (∀ t ∈ fs.service_type, normTok t) ∧
    (∀ t ∈ fs.special_needs, normTok t)

theorem natCodesAux_digits (f : Nat) :
    ∀ n c, c ∈ natCodesAux f n → 48 ≤ c ∧ c ≤ 57 := by
  induction f with
  | zero => intro n c hc; simp [natCodesAux] at hc
  | succ f ih =>
    intro n c hc
    unfold natCodesAux at hc
    split_ifs at hc with h
    · simp at hc
      omega
    · rw [List.mem_append] at hc
      rcases hc with hc | hc
      · exact ih _ c hc
      · simp at hc
        have := Nat.mod_lt n (show 0 < 10 by omega)
        omega

theorem natCodesAux_ne_nil (f n : Nat) (h : f ≠ 0) : natCodesAux f n ≠ [] := by
  cases f with
  | zero => exact absurd rfl h
  | succ f =>
    unfold natCodesAux
    split_ifs with h2
    · simp
    · simp

theorem intCodes_noSpace (n : Int) : ∀ c ∈ intCodes n, isSpaceCode c = false := by
  intro c hc
  unfold intCodes at hc
  split_ifs at hc with h
  · rcases List.mem_cons.mp hc with hc | hc
    · subst hc; rfl
    · have := natCodesAux_digits _ _ c hc
      simp [isSpaceCode]
      omega
  · have := natCodesAux_digits _ _ c hc
    simp [isSpaceCode]
    omega

theorem intCodes_ne_nil (n : Int) : intCodes n ≠ [] := by
  unfold intCodes
  split_ifs with h
  · simp
  · exact natCodesAux_ne_nil _ _ (by omega)

theorem boolCodes_noSpace (b : Bool) : ∀ c ∈ boolCodes b, isSpaceCode c = false := by
  cases b <;> decide

theorem boolCodes_ne_nil (b : Bool) : boolCodes b ≠ [] := by
  cases b <;> decide

/-- Every token produced by stripping-then-lowercasing a non-blank
string is a clean token. -/
theorem normTok_lower_strip (s : List Nat) (h : stripCodes s ≠ []) :
    normTok (lowerCodes (stripCodes s)) := by
  refine ⟨?_, ?_, ?_⟩
  · intro hc
    exact h (List.map_eq_nil_iff.mp hc)
  · rw [stripCodes_lower, stripCodes_idem]
  · exact lowerCodes_idem _

theorem ensureList_normTok (v : PyVal) : ∀ t ∈ ensureList v, normTok t := by
  cases v with
  | pnone => intro t ht; simp [ensureList] at ht
  | pstr s =>
    intro t ht
    simp only [ensureList] at ht
    split_ifs at ht with h
    · simp at ht
    · simp at ht
      subst ht
      exact normTok_lower_strip s h
  | plist xs =>
    intro t ht
    simp only [ensureList] at ht
    rw [List.mem_filterMap] at ht
    obtain ⟨a, _, ha⟩ := ht
    by_cases h : stripCodes (atomStr a) = []
    · rw [if_pos h] at ha
      exact absurd ha (by simp)
    · rw [if_neg h] at ha
      rw [← Option.some.inj ha]
      exact normTok_lower_strip _ h
  | pint n =>
    intro t ht
    simp only [ensureList, List.mem_singleton] at ht
    subst ht
    apply normTok_lower_strip
    rw [noSpace_stripCodes_eq_self _ (intCodes_noSpace n)]
    exact intCodes_ne_nil n
  | pbool b =>
    intro t ht
    simp only [ensureList, List.mem_singleton] at ht
    subst ht
    apply normTok_lower_strip
    rw [noSpace_stripCodes_eq_self _ (boolCodes_noSpace b)]
    exact boolCodes_ne_nil b

/-- `_ensure_list` is the identity on a list of clean tokens, the key
fact behind idempotence of the normalizers. -/
theorem ensureList_plist_tokens (ts : List (List Nat)) (h : ∀ t ∈ ts, normTok t) :
    ensureList (.plist (ts.map .astr)) = ts := by
  induction ts with
  | nil => rfl
  | cons t ts ih =>
    obtain ⟨hne, hstrip, hlow⟩ := h t (by simp)
    have e1 : ensureList (.plist ((t :: ts).map .astr)) =
        if stripCodes t = [] then ensureList (.plist (ts.map .astr))
        else lowerCodes (stripCodes t) :: ensureList (.plist (ts.map .astr)) := by
      by_cases hc : stripCodes t = [] <;>
        simp [ensureList, atomStr, List.filterMap_cons, hc]
    rw [e1, hstrip, if_neg hne, hlow]
    exact congrArg (t :: ·) (ih fun x hx => h x (by simp [hx]))

theorem normalizeFilters_wellFormed (f : Option RawFilters) :
    wellFormedFS (normalizeFilters f) :=
  ⟨ensureList_normTok _, ensureList_normTok _, ensureList_normTok _,
   ensureList_normTok _, ensureList_normTok _⟩

/-- Membership helper for the backfill branches of the researcher
normalizer: either branch is an `_ensure_list` result. -/
theorem normTok_ite (c : Prop) [Decidable c] (u v : PyVal) :
    ∀ t ∈ (if c then ensureList u else ensureList v), normTok t := by
  split_ifs with h
  · exact ensureList_normTok u
  · exact ensureList_normTok v

theorem nil_normTok : ∀ t ∈ ([] : List (List Nat)), normTok t := by
  intro t ht
  exact absurd ht (List.not_mem_nil t)

theorem normalizeAttributeFilters_wellFormed (f : Option RawFilters) :
    wellFormedFS (normalizeAttributeFilters f) := by
  unfold normalizeAttributeFilters
  split_ifs with h
  · exact ⟨nil_normTok, nil_normTok, nil_normTok, nil_normTok, nil_normTok⟩
  all_goals exact ⟨ensureList_normTok _, ensureList_normTok _, ensureList_normTok _,
    ensureList_normTok _, ensureList_normTok _⟩

theorem normalizeFilters_idem (f : Option RawFilters) :
    normalizeFilters (some (rawOfFS (normalizeFilters f))) = normalizeFilters f := by
  obtain ⟨h1, h2, h3, h4, h5⟩ := normalizeFilters_wellFormed f
  have e : normalizeFilters (some (rawOfFS (normalizeFilters f))) =
      ⟨ensureList (.plist ((normalizeFilters f).dietary.map .astr)),
       ensureList (.plist ((normalizeFilters f).meal_time.map .astr)),
       ensureList (.plist ((normalizeFilters f).accessibility.map .astr)),
       ensureList (.plist ((normalizeFilters f).service_type.map .astr)),
       ensureList (.plist ((normalizeFilters f).special_needs.map .astr))⟩ := rfl
  rw [e, ensureList_plist_tokens _ h1, ensureList_plist_tokens _ h2,
    ensureList_plist_tokens _ h3, ensureList_plist_tokens _ h4,
    ensureList_plist_tokens _ h5]

theorem normalizeAttributeFilters_idem (f : Option RawFilters) :
    normalizeAttributeFilters (some (rawOfFS (normalizeAttributeFilters f))) =
      normalizeAttributeFilters f := by
  obtain ⟨h1, h2, h3, h4, h5⟩ := normalizeAttributeFilters_wellFormed f
  have e : normalizeAttributeFilters (some (rawOfFS (normalizeAttributeFilters f))) =
      ⟨ensureList (.plist ((normalizeAttributeFilters f).dietary.map .astr)),
       ensureList (.plist ((normalizeAttributeFilters f).meal_time.map .astr)),
       ensureList (.plist ((normalizeAttributeFilters f).accessibility.map .astr)),
       ensureList (.plist ((normalizeAttributeFilters f).service_type.map .astr)),
       ensureList (.plist ((normalizeAttributeFilters f).special_needs.map .astr))⟩ := rfl
  rw [e, ensureList_plist_tokens _ h1, ensureList_plist_tokens _ h2,
    ensureList_plist_tokens _ h3, ensureList_plist_tokens _ h4,
    ensureList_plist_tokens _ h5]

/-- The `filters` portion of `_fill_defaults` in
`utils/analyst_clean.py`: `setdefault("filters", ...)` followed by, for each
canonical key, `setdefault(key, ...)` and a None-to-empty-list
replacement; every other value (and the legacy keys) is left exactly
as the model produced it. -/
structure FilledFilters where
  dietary : PyVal
  meal_time : PyVal
  accessibility : PyVal
  service_type : PyVal
  special_needs : PyVal
  service : Option PyVal
  special : Option PyVal
deriving DecidableEq, Repr

/-- One slot of `_fill_defaults`: missing key or null value becomes
the empty list, anything else passes through untouched. -/
def fillSlot (v : Option PyVal) : PyVal :=
  match v with
  | none => .plist []
  | some .pnone => .plist []
  | some v => v

/-- `_fill_defaults` restricted to the `filters` object (the part the
claims are about); `analyze_query_to_json` returns its parsed model
output with exactly this transformation applied to `filters`. -/
def fillDefaultsFilters (filters : Option RawFilters) : FilledFilters :=
  let r := filters.getD emptyRaw
  ⟨fillSlot r.dietary, fillSlot r.meal_time, fillSlot r.accessibility,
   fillSlot r.service_type, fillSlot r.special_needs, r.service, r.special⟩

/-- Rendering of a normalizer output in the shape `_fill_defaults`
returns, for comparing the two: five list-valued canonical slots,
no legacy keys. -/
def filledOfFS (fs : FilterSet) : FilledFilters :=
  ⟨.plist (fs.dietary.map .astr), .plist (fs.meal_time.map .astr),
   .plist (fs.accessibility.map .astr), .plist (fs.service_type.map .astr),
   .plist (fs.special_needs.map .astr), none, none⟩

/-- A model response putting the bare mixed-case string Vegan in the
dietary slot. -/
def rawBareString : RawFilters :=
  ⟨some (.pstr (pycodes "Vegan")), none, none, none, none, none, none⟩

/-- A filters mapping where the canonical key `service_type` is
present with a null value while the legacy alias `service` carries a
value. -/
def rawAliasClash : RawFilters :=
  ⟨none, none, none, some .pnone, none, some (.pstr (pycodes "takeout")), none⟩

theorem fillSlot_default (v : Option PyVal) (h : v = none ∨ v = some .pnone) :
    fillSlot v = .plist [] := by
  rcases h with h | h <;> subst h <;> rfl

theorem fillSlot_pass (v : Option PyVal) (w : PyVal) (h : v = some w)
    (h2 : w ≠ .pnone) : fillSlot v = w := by
  subst h
  cases w with
  | pnone => exact absurd rfl h2
  | pstr s => rfl
  | plist xs => rfl
  | pint n => rfl
  | pbool b => rfl

/-- Claim C4: the filter normalizers (`_normalize_filters` in the
orchestrator and `_normalize_attribute_filters` in the researcher) are
total and idempotent: for every input shape they return the five-slot
FilterSet form (every slot a list of non-empty, stripped, lowercased
tokens) without failing, and renormalizing a normalized output is the
identity. -/
theorem filter_normalizer_total_idempotent :
    ∀ f : Option RawFilters,
      wellFormedFS (normalizeFilters f) ∧
      normalizeFilters (some (rawOfFS (normalizeFilters f))) = normalizeFilters f ∧
      wellFormedFS (normalizeAttributeFilters f) ∧
      normalizeAttributeFilters (some (rawOfFS (normalizeAttributeFilters f))) =
        normalizeAttributeFilters f :=
  fun f => ⟨normalizeFilters_wellFormed f, normalizeFilters_idem f,
    normalizeAttributeFilters_wellFormed f, normalizeAttributeFilters_idem f⟩

/-- Claim C5, counterexample: `analyze_query_to_json` does NOT pass the
raw filters through the Filter Normalizer.  On a model response that
puts the bare mixed-case string Vegan in the dietary slot,
`_fill_defaults` leaves it as a bare string, which differs from the
Filter Normalizer output (a one-element lowercased list). -/
theorem analyzer_filters_not_normalized :
    fillDefaultsFilters (some rawBareString) =
      ⟨.pstr (pycodes "Vegan"), .plist [], .plist [], .plist [], .plist [],
        none, none⟩ ∧
    fillDefaultsFilters (some rawBareString) ≠
      filledOfFS (normalizeFilters (some rawBareString)) := by
  exact ⟨by decide, by decide⟩

/-- Claim C5, amended: the analyzer only guarantees that the five
canonical filter keys exist, replacing a missing key or a null value
by the empty list; any other value (bare strings, mixed-case or
untrimmed tokens) and the legacy keys `service` / `special` pass
through exactly as the model produced them.  Canonicalization happens
later, in the orchestrator / researcher normalizers. -/
theorem analyzer_fill_defaults_spec :
    fillDefaultsFilters none =
      ⟨.plist [], .plist [], .plist [], .plist [], .plist [], none, none⟩ ∧
    ∀ r : RawFilters,
      ((r.dietary = none ∨ r.dietary = some .pnone) →
        (fillDefaultsFilters (some r)).dietary = .plist []) ∧
      (∀ v, r.dietary = some v → v ≠ .pnone →
        (fillDefaultsFilters (some r)).dietary = v) ∧
      ((r.meal_time = none ∨ r.meal_time = some .pnone) →
        (fillDefaultsFilters (some r)).meal_time = .plist []) ∧
      (∀ v, r.meal_time = some v → v ≠ .pnone →
        (fillDefaultsFilters (some r)).meal_time = v) ∧
      ((r.accessibility = none ∨ r.accessibility = some .pnone) →
        (fillDefaultsFilters (some r)).accessibility = .plist []) ∧
      (∀ v, r.accessibility = some v → v ≠ .pnone →
        (fillDefaultsFilters (some r)).accessibility = v) ∧
      ((r.service_type = none ∨ r.service_type = some .pnone) →
        (fillDefaultsFilters (some r)).service_type = .plist []) ∧
      (∀ v, r.service_type = some v → v ≠ .pnone →
        (fillDefaultsFilters (some r)).service_type = v) ∧
      ((r.special_needs = none ∨ r.special_needs = some .pnone) →
        (fillDefaultsFilters (some r)).special_needs = .plist []) ∧
      (∀ v, r.special_needs = some v → v ≠ .pnone →
        (fillDefaultsFilters (some r)).special_needs = v) ∧
      (fillDefaultsFilters (some r)).service = r.service ∧
      (fillDefaultsFilters (some r)).special = r.special := by
  refine ⟨rfl, fun r => ?_⟩
  exact ⟨fun h => fillSlot_default _ h, fun v hv h2 => fillSlot_pass _ v hv h2,
    fun h => fillSlot_default _ h, fun v hv h2 => fillSlot_pass _ v hv h2,
    fun h => fillSlot_default _ h, fun v hv h2 => fillSlot_pass _ v hv h2,
    fun h => fillSlot_default _ h, fun v hv h2 => fillSlot_pass _ v hv h2,
    fun h => fillSlot_default _ h, fun v hv h2 => fillSlot_pass _ v hv h2,
    rfl, rfl⟩

/-- Witness for the amended C5 statement at a concrete input. -/
theorem analyzer_fill_defaults_spec_witness :
    (fillDefaultsFilters (some rawBareString)).meal_time = .plist [] ∧
    (fillDefaultsFilters (some rawBareString)).dietary = .pstr (pycodes "Vegan") :=
  ⟨(analyzer_fill_defaults_spec.2 rawBareString).2.2.1 (Or.inl rfl),
   (analyzer_fill_defaults_spec.2 rawBareString).2.1 (.pstr (pycodes "Vegan"))
     rfl (by decide)⟩

/-- Claim C6, counterexample: the orchestrator and researcher
normalizers are NOT extensionally equal.  When the canonical key
`service_type` is present with a null value and the legacy alias
`service` holds the string takeout, the orchestrator returns an empty
`service_type` slot while the researcher backfills it from the alias. -/
theorem normalizers_disagree_on_alias_clash :
    normalizeFilters (some rawAliasClash) ≠
      normalizeAttributeFilters (some rawAliasClash) ∧
    (normalizeFilters (some rawAliasClash)).service_type = [] ∧
    (normalizeAttributeFilters (some rawAliasClash)).service_type =
      [pycodes "takeout"] := by
  exact ⟨by decide, by decide, by decide⟩

/-- The backfill pattern separating the two normalizers: a canonical
key present whose value normalizes to the empty list while its legacy
alias is present with a value normalizing to a non-empty list. -/
def aliasBackfillClash (primary fallbackKey : Option PyVal) : Prop :=
  primary.isSome = true ∧ fallbackKey.isSome = true ∧
    ensureList (pyGet2 primary fallbackKey) = [] ∧
    ensureList (fallbackKey.getD .pnone) ≠ []

theorem pyGet2_none_getD (fallbackKey : Option PyVal) :
    pyGet2 none fallbackKey = fallbackKey.getD .pnone := by
  cases fallbackKey <;> rfl

/-- Outside the clash pattern, the researcher backfill branch returns
exactly the orchestrator value for the slot. -/
theorem slot_agree (primary fallbackKey : Option PyVal)
    (h : ¬aliasBackfillClash primary fallbackKey) :
    (if fallbackKey.isSome = true ∧ ensureList (pyGet2 primary fallbackKey) = []
     then ensureList (fallbackKey.getD .pnone)
     else ensureList (pyGet2 primary fallbackKey)) =
      ensureList (pyGet2 primary fallbackKey) := by
  split_ifs with hc
  · obtain ⟨hs1, hs2⟩ := hc
    by_cases hz : ensureList (fallbackKey.getD .pnone) = []
    · rw [hz, hs2]
    · rcases primary with _ | v
      · rw [pyGet2_none_getD]
      · exact absurd ⟨rfl, hs1, hs2, hz⟩ h
  · rfl

/-- Claim C6, amended: `_normalize_filters` (orchestrator) and
`_normalize_attribute_filters` (researcher) agree on every raw filters
mapping EXCEPT those where a canonical key (`service_type` or
`special_needs`) is present with a value that normalizes to the empty
list while its legacy alias (`service` / `special`) is present with a
value that normalizes to a non-empty list; on such mappings the
researcher backfills the slot from the alias and the orchestrator
leaves it empty. -/
theorem normalizers_agree_without_clash :
    ∀ f : Option RawFilters,
      (∀ r, f = some r →
        ¬aliasBackfillClash r.service_type r.service ∧
          ¬aliasBackfillClash r.special_needs r.special) →
      normalizeFilters f = normalizeAttributeFilters f := by
  intro f h
  cases f with
  | none => rfl
  | some r =>
    obtain ⟨hst, hsp⟩ := h r rfl
    by_cases hfr : pyFalsyRaw (some r) = true
    · obtain ⟨d, m, a, st, sn, sv, sp⟩ := r
      unfold pyFalsyRaw isEmptyRaw at hfr
      simp only [Bool.and_eq_true, Option.isNone_iff_eq_none] at hfr
      obtain ⟨⟨⟨⟨⟨⟨h1, h2⟩, h3⟩, h4⟩, h5⟩, h6⟩, h7⟩ := hfr
      subst h1; subst h2; subst h3; subst h4; subst h5; subst h6; subst h7
      rfl
    · have e2 : normalizeAttributeFilters (some r) =
          ⟨ensureList (r.dietary.getD .pnone), ensureList (r.meal_time.getD .pnone),
           ensureList (r.accessibility.getD .pnone),
           (if r.service.isSome = true ∧
              ensureList (pyGet2 r.service_type r.service) = []
            then ensureList (r.service.getD .pnone)
            else ensureList (pyGet2 r.service_type r.service)),
           (if r.special.isSome = true ∧
              ensureList (pyGet2 r.special_needs r.special) = []
            then ensureList (r.special.getD .pnone)
            else ensureList (pyGet2 r.special_needs r.special))⟩ := by
        unfold normalizeAttributeFilters
        rw [if_neg hfr]
        rfl
      rw [e2, slot_agree r.service_type r.service hst,
        slot_agree r.special_needs r.special hsp]
      rfl

/-- Witness for the amended C6 statement: on the empty mapping the two
normalizers agree (both give the empty FilterSet). -/
theorem normalizers_agree_without_clash_witness :
    normalizeFilters (some emptyRaw) = normalizeAttributeFilters (some emptyRaw) :=
  normalizers_agree_without_clash (some emptyRaw)
    (fun r hr => by
      cases hr
      exact ⟨by intro hc; exact absurd hc.1 (by decide),
        by intro hc; exact absurd hc.1 (by decide)⟩)

-- ---------------------------------------------------------------------------
-- Reviewer score parsing (`_parse_score` in agents/reviewer.py)
-- ---------------------------------------------------------------------------

/-- Greedy capture of one or two digits, the `(\d{1,2})` group. -/
def takeDigits2 : List Nat → Option Nat
  | [] => none
  | d1 :: rest =>
    if isDigitCode d1 then
      match rest with
      | d2 :: _ =>
        if isDigitCode d2 then some (10 * (d1 - 48) + (d2 - 48))
        else some (d1 - 48)
      | [] => some (d1 - 48)
    else none

/-- Attempt of the pattern `OVERALL\s*[:\-]\s*(\d{1,2})` (ignorecase)
anchored at the head of the text. -/
def matchOverallAt (s : List Nat) : Option Nat :=
  if isPrefixN (pycodes "overall") (lowerCodes s) then
    match (s.drop 7).dropWhile isSpaceCode with
    | c :: rest3 =>
      if c = 58 ∨ c = 45 then takeDigits2 (rest3.dropWhile isSpaceCode)
      else none
    | [] => none
  else none

/-- `re.search` of the OVERALL pattern: leftmost attempt that matches. -/
def searchOverall : List Nat → Option Nat
  | [] => none
  | s@(_ :: t) =>
    match matchOverallAt s with
    | some v => some v
    | none => searchOverall t

/-- The `\s*/\s*10` tail of the second pattern. -/
def slashTenTail (s : List Nat) : Bool :=
  match s.dropWhile isSpaceCode with
  | 47 :: rest =>
    (match rest.dropWhile isSpaceCode with
     | 49 :: 48 :: _ => true
     | _ => false)
  | _ => false

/-- Attempt of `(\d{1,2})\s*/\s*10` anchored at the head: try two
digits greedily, backtrack to one. -/
def matchSlashTenAt : List Nat → Option Nat
  | [] => none
  | d1 :: rest =>
    if isDigitCode d1 then
      match rest with
      | d2 :: rest2 =>
        if isDigitCode d2 then
          if slashTenTail rest2 then some (10 * (d1 - 48) + (d2 - 48))
          else if slashTenTail rest then some (d1 - 48)
          else none
        else if slashTenTail rest then some (d1 - 48)
        else none
      | [] => if slashTenTail [] then some (d1 - 48) else none
    else none

/-- `re.search` of the `N/10` pattern. -/
def searchSlashTen : List Nat → Option Nat
  | [] => none
  | s@(_ :: t) =>
    match matchSlashTenAt s with
    | some v => some v
    | none => searchSlashTen t

/-- Is the next position a non-word character or the end of the text
(the closing `\b`)? -/
def nwHead : List Nat → Bool
  | [] => true
  | c :: _ => !isWordCode c

/-- `re.search` of `\b(10|[1-9])\b`: scan with the previous-character
word flag; the alternation tries `10` before `[1-9]`. -/
def searchStandalone : Bool → List Nat → Option Nat
  | _, [] => none
  | prevW, a :: rest =>
    match (if prevW then none
      else if a = 49 then
        match rest with
        | 48 :: rest2 => if nwHead rest2 then some 10 else none
        | _ => if nwHead rest then some 1 else none
      else if 50 ≤ a ∧ a ≤ 57 then (if nwHead rest then some (a - 48) else none)
      else none : Option Nat) with
    | some v => some v
    | none => searchStandalone (isWordCode a) rest

/-- First pattern that hits, in source order: OVERALL, then `N/10`,
then a standalone 1-10. -/
def firstScoreHit (text : List Nat) : Option Nat :=
  match searchOverall text with
  | some v => some v
  | none =>
    match searchSlashTen text with
    | some v => some v
    | none => searchStandalone false text

/-- `max(1, min(10, val))`. -/
def clampScore (v : Nat) : Int := max 1 (min 10 (v : Int))

/-- `_parse_score` from `agents/reviewer.py`: falsy input (a failed
model call or empty text) gives the neutral default 7; otherwise the
stripped text is searched with the three patterns in order and any
parsed value is clamped to [1, 10]; no pattern hit gives 7. -/
def parseScore (evaluationText : Option (List Nat)) : Int :=
  match evaluationText with
  | none => 7
  | some s =>
    if s = [] then 7
    else
      match firstScoreHit (stripCodes s) with
      | some v => clampScore v
      | none => 7

theorem clampScore_range (v : Nat) : 1 ≤ clampScore v ∧ clampScore v ≤ 10 :=
  ⟨le_max_left 1 _, max_le (by norm_num) (min_le_left _ _)⟩

theorem parseScore_range (e : Option (List Nat)) :
    1 ≤ parseScore e ∧ parseScore e ≤ 10 := by
  cases e with
  | none => exact ⟨by decide, by decide⟩
  | some s =>
    have hs : parseScore (some s) =
        (if s = [] then (7 : Int) else
          match firstScoreHit (stripCodes s) with
          | some v => clampScore v
          | none => 7) := rfl
    rw [hs]
    split_ifs with h
    · exact ⟨by decide, by decide⟩
    · cases hm : firstScoreHit (stripCodes s) with
      | none => exact ⟨by decide, by decide⟩
      | some v => exact clampScore_range v

/-- Claim C2, counterexample: `parse("Score: 11")` does not clamp to
10 — it returns the default 7.  No pattern matches: the text has no
OVERALL label and no `/10`, and the standalone-number fallback
`\b(10|[1-9])\b` cannot match inside the two-digit token 11. -/
theorem parse_score_eleven_counterexample :
    parseScore (some (pycodes "Score: 11")) = 7 ∧
    parseScore (some (pycodes "Score: 11")) ≠ 10 := by
  exact ⟨by decide, by decide⟩

/-- Claim C2, amended: `parse("OVERALL: 9") = 9`;
`parse("no numbers here") = 7`; a failed model call (None) or empty
text defaults to 7; `parse("Score: 11") = 7` (the value 11 is never
parsed, since no pattern matches a standalone two-digit number above
10 and `Score` is not a recognized label) while a parsed out-of-range
value such as `parse("OVERALL: 11")` is clamped to 10; every result
lies in [1, 10]. -/
theorem parse_score_spec :
    parseScore (some (pycodes "OVERALL: 9")) = 9 ∧
    parseScore (some (pycodes "no numbers here")) = 7 ∧
    parseScore none = 7 ∧
    parseScore (some []) = 7 ∧
    parseScore (some (pycodes "Score: 11")) = 7 ∧
    parseScore (some (pycodes "OVERALL: 11")) = 10 ∧
    ∀ e, 1 ≤ parseScore e ∧ parseScore e ≤ 10 := by
  exact ⟨by decide, by decide, by decide, by decide, by decide, by decide,
    parseScore_range⟩

-- ---------------------------------------------------------------------------
-- Reviewer agent (agents/reviewer.py)
-- ---------------------------------------------------------------------------

/-- The uniform result envelope (`models/agent_message.py`), with the
payload type left generic since each agent carries its own shape. -/
structure AgentMsg (α : Type) where
  agent : String
  status : String
  data : Option α
  confidence : ℚ
deriving DecidableEq, Repr

/-- `AgentMessage.is_successful`: status is success AND the payload is
not None. -/
def isSuccessful {α : Type} (m : AgentMsg α) : Bool :=
  m.status == "success" && m.data.isSome

/-- The writer payload as the reviewer sees it: either a dict carrying
a `recommendation` entry (possibly null) or some other value whose
`str()` rendering is used directly. -/
inductive WriterData where
  | recDict (recommendation : Option (List Nat)) : WriterData
  | rawText (s : List Nat) : WriterData
deriving DecidableEq, Repr

/-- `_extract_text` from `agents/reviewer.py`: empty on a missing or
unsuccessful message or a null payload; the `recommendation` entry of
a dict (null coerced to the empty string), else the stringified
payload; always stripped. -/
def extractText (writer_msg : Option (AgentMsg WriterData)) : List Nat :=
  match writer_msg with
  | none => []
  | some m =>
    if isSuccessful m = false then []
    else
      match m.data with
      | none => []
      | some (.recDict r) => stripCodes (r.getD [])
      | some (.rawText s) => stripCodes s

/-- Attempt of `FEEDBACK\s*:\s*(.*)` (ignorecase, dotall) anchored at
the head of the text. -/
def matchFeedbackAt (s : List Nat) : Option (List Nat) :=
  if isPrefixN (pycodes "feedback") (lowerCodes s) then
    match (s.drop 8).dropWhile isSpaceCode with
    | 58 :: rest3 => some (rest3.dropWhile isSpaceCode)
    | _ => none
  else none

/-- `re.search` of the FEEDBACK pattern. -/
def searchFeedback : List Nat → Option (List Nat)
  | [] => none
  | s@(_ :: t) =>
    match matchFeedbackAt s with
    | some v => some v
    | none => searchFeedback t

/-- The reviewer payload dict. -/
structure ReviewData where
  score : Int
  feedback : List Nat
  raw_evaluation : Option (List Nat)
deriving DecidableEq, Repr

/-- The full tuple `reviewer_agent` returns, plus a flag recording
whether the model call (`call_cortex`) was reached on that path. -/
structure ReviewerOutcome where
  msg : AgentMsg ReviewData
  score : Int
  feedback : List Nat
  raw_eval : Option (List Nat)
  calledModel : Bool
deriving DecidableEq, Repr

/-- The early-return value of `reviewer_agent`:
`AgentMessage("Reviewer", "failed", None, 0.0), 0, reason, ""`. -/
def reviewerFailed (reason : List Nat) : ReviewerOutcome :=
  ⟨⟨"Reviewer", "failed", none, 0⟩, 0, reason, some [], false⟩

/-- The body of `reviewer_agent` past its guards: the model call,
score parsing, feedback extraction and status mapping.  Only the model
response feeds the outcome (the narrative text feeds the prompt). -/
def reviewerMain (modelResponse : Option (List Nat)) : ReviewerOutcome :=
  let raw_eval := modelResponse
  let score := parseScore raw_eval
  let feedback :=
    match raw_eval with
    | none => []
    | some re2 =>
      if re2 = [] then []
      else
        match searchFeedback re2 with
        | some g => stripCodes g
        | none => []
  if 8 ≤ score then
    ⟨⟨"Reviewer", "success", some ⟨score, feedback, raw_eval⟩, 9 / 10⟩,
      score, feedback, raw_eval, true⟩
  else
    ⟨⟨"Reviewer", "partial", some ⟨score, feedback, raw_eval⟩, 7 / 10⟩,
      score, feedback, raw_eval, true⟩

/-- `reviewer_agent` from `agents/reviewer.py`.  The model response to
the review prompt is passed as a parameter (None models a failed
`call_cortex`), so the function is the exact control flow of the
source around that call. -/
def reviewerAgent (writer_msg : Option (AgentMsg WriterData))
    (modelResponse : Option (List Nat)) : ReviewerOutcome :=
  match writer_msg with
  | none => reviewerFailed (pycodes "Writer output missing.")
  | some w =>
    if isSuccessful w = false then
      reviewerFailed (pycodes "Writer output missing.")
    else if extractText (some w) = [] then
      reviewerFailed (pycodes "Empty recommendation text.")
    else
      reviewerMain modelResponse

/-- Claim C10: whenever the reviewer is invoked with a writer message
that is absent, not successful, or whose extracted narrative text is
empty, it returns a failed Reviewer message with a null payload and a
score of 0 — strictly below every value `_parse_score` can produce —
and the model call is never issued on these paths. -/
theorem reviewer_guard_spec :
    ∀ (w : Option (AgentMsg WriterData)) (mr : Option (List Nat)),
      (w = none ∨ (∃ m, w = some m ∧ isSuccessful m = false) ∨
        extractText w = []) →
      (reviewerAgent w mr).msg.status = "failed" ∧
      (reviewerAgent w mr).msg.data = none ∧
      (reviewerAgent w mr).score = 0 ∧
      (reviewerAgent w mr).calledModel = false ∧
      (∀ e, (reviewerAgent w mr).score < parseScore e) := by
  intro w mr h
  cases w with
  | none =>
    refine ⟨rfl, rfl, rfl, rfl, fun e => ?_⟩
    have h1 := (parseScore_range e).1
    show (0 : Int) < parseScore e
    omega
  | some m =>
    by_cases hsucc : isSuccessful m = false
    · have e0 : reviewerAgent (some m) mr =
          (if isSuccessful m = false then
            reviewerFailed (pycodes "Writer output missing.")
          else if extractText (some m) = [] then
            reviewerFailed (pycodes "Empty recommendation text.")
          else reviewerMain mr) := rfl
      rw [e0, if_pos hsucc]
      refine ⟨rfl, rfl, rfl, rfl, fun e => ?_⟩
      have h1 := (parseScore_range e).1
      show (0 : Int) < parseScore e
      omega
    · have hext : extractText (some m) = [] := by
        rcases h with h | ⟨m2, hm2, hf⟩ | h
        · exact absurd h (by simp)
        · injection hm2 with hmm
          subst hmm
          exact absurd hf hsucc
        · exact h
      have e0 : reviewerAgent (some m) mr =
          (if isSuccessful m = false then
            reviewerFailed (pycodes "Writer output missing.")
          else if extractText (some m) = [] then
            reviewerFailed (pycodes "Empty recommendation text.")
          else reviewerMain mr) := rfl
      rw [e0, if_neg hsucc, if_pos hext]
      refine ⟨rfl, rfl, rfl, rfl, fun e => ?_⟩
      have h1 := (parseScore_range e).1
      show (0 : Int) < parseScore e
      omega

/-- Witness for C10 at a concrete input: an absent writer message. -/
theorem reviewer_guard_spec_witness :
    (reviewerAgent none none).score = 0 ∧
    (reviewerAgent none none).calledModel = false :=
  ⟨(reviewer_guard_spec none none (Or.inl rfl)).2.2.1,
   (reviewer_guard_spec none none (Or.inl rfl)).2.2.2.1⟩

-- ---------------------------------------------------------------------------
-- Orchestrator Writer/Reviewer loop (agents/orchestrator.py, step 5)
-- ---------------------------------------------------------------------------

/-- The loop state when the orchestrator leaves the Writer/Reviewer
loop: the index of the best writer output kept (`best_writer_msg`,
None when no iteration updated it), the best score, and the number of
iterations that actually ran. -/
structure LoopResult where
  bestIdx : Option Nat
  bestScore : Int
  iters : Nat
deriving DecidableEq, Repr

/-- One-for-one translation of the `for i in range(int(max_iterations))`
loop: each iteration reads the reviewer score for iteration `i`,
updates the best-so-far on a strict improvement, and breaks once the
score meets the quality threshold.  `fuel` is the number of remaining
iterations. -/
def writerReviewerLoop (scores : Nat → Int) (thr : Int) :
    Nat → Nat → Option Nat → Int → LoopResult
  | 0, i, b, bs => ⟨b, bs, i⟩
  | fuel + 1, i, b, bs =>
    if thr ≤ scores i then
      ⟨if bs < scores i then some i else b,
       if bs < scores i then scores i else bs, i + 1⟩
    else
      writerReviewerLoop scores thr fuel (i + 1)
        (if bs < scores i then some i else b)
        (if bs < scores i then scores i else bs)

/-- The loop as entered by `orchestrator_agent`: `best_writer_msg =
None`, `best_score = -1`, up to `max_iterations` iterations. -/
def runWriterReviewerLoop (scores : Nat → Int) (maxIterations : Nat)
    (thr : Int) : LoopResult :=
  writerReviewerLoop scores thr maxIterations 0 none (-1)

/-- Unfolding equation for one loop step. -/
theorem loop_succ (scores : Nat → Int) (thr : Int) (fuel i : Nat)
    (b : Option Nat) (bs : Int) :
    writerReviewerLoop scores thr (fuel + 1) i b bs =
      if thr ≤ scores i then
        ⟨if bs < scores i then some i else b,
         if bs < scores i then scores i else bs, i + 1⟩
      else
        writerReviewerLoop scores thr fuel (i + 1)
          (if bs < scores i then some i else b)
          (if bs < scores i then scores i else bs) := rfl

theorem loop_iters_le (scores : Nat → Int) (thr : Int) :
    ∀ fuel i b bs, (writerReviewerLoop scores thr fuel i b bs).iters ≤ i + fuel := by
  intro fuel
  induction fuel with
  | zero => intro i b bs; exact Nat.le_refl i
  | succ fuel ih =>
    intro i b bs
    by_cases h : thr ≤ scores i
    · rw [loop_succ, if_pos h]
      show i + 1 ≤ i + (fuel + 1)
      omega
    · rw [loop_succ, if_neg h]
      calc (writerReviewerLoop scores thr fuel (i + 1) _ _).iters
          ≤ (i + 1) + fuel := ih (i + 1) _ _
        _ = i + (fuel + 1) := by omega

theorem loop_iters_ge (scores : Nat → Int) (thr : Int) :
    ∀ fuel i b bs, i ≤ (writerReviewerLoop scores thr fuel i b bs).iters := by
  intro fuel
  induction fuel with
  | zero => intro i b bs; exact Nat.le_refl i
  | succ fuel ih =>
    intro i b bs
    by_cases h : thr ≤ scores i
    · rw [loop_succ, if_pos h]
      show i ≤ i + 1
      omega
    · rw [loop_succ, if_neg h]
      calc i ≤ i + 1 := by omega
        _ ≤ _ := ih (i + 1) _ _

theorem loop_below_thr (scores : Nat → Int) (thr : Int) :
    ∀ fuel i b bs j, i ≤ j →
      j + 1 < (writerReviewerLoop scores thr fuel i b bs).iters →
      scores j < thr := by
  intro fuel
  induction fuel with
  | zero =>
    intro i b bs j hij hj
    exact absurd hj (by show ¬(j + 1 < i); omega)
  | succ fuel ih =>
    intro i b bs j hij hj
    by_cases h : thr ≤ scores i
    · rw [loop_succ, if_pos h] at hj
      have hj2 : j + 1 < i + 1 := hj
      omega
    · rw [loop_succ, if_neg h] at hj
      rcases Nat.eq_or_lt_of_le hij with he | hl
      · subst he
        omega
      · exact ih (i + 1) _ _ j hl hj

theorem loop_early_stop (scores : Nat → Int) (thr : Int) :
    ∀ fuel i b bs,
      (writerReviewerLoop scores thr fuel i b bs).iters < i + fuel →
      0 < (writerReviewerLoop scores thr fuel i b bs).iters ∧
        thr ≤ scores ((writerReviewerLoop scores thr fuel i b bs).iters - 1) := by
  intro fuel
  induction fuel with
  | zero =>
    intro i b bs hlt
    exact absurd hlt (by show ¬(i < i + 0); omega)
  | succ fuel ih =>
    intro i b bs hlt
    by_cases h : thr ≤ scores i
    · rw [loop_succ, if_pos h] at hlt ⊢
      refine ⟨?_, ?_⟩
      · show 0 < i + 1
        omega
      · show thr ≤ scores (i + 1 - 1)
        simpa using h
    · rw [loop_succ, if_neg h] at hlt ⊢
      exact ih (i + 1) _ _ (by omega)

theorem loop_best (scores : Nat → Int) (thr : Int) :
    ∀ fuel i b bs,
      (∀ j, j < i → scores j ≤ bs) →
      ((b = none ∧ bs = -1) ∨ ∃ j, j < i ∧ b = some j ∧ bs = scores j) →
      (∀ j, j < (writerReviewerLoop scores thr fuel i b bs).iters →
        scores j ≤ (writerReviewerLoop scores thr fuel i b bs).bestScore) ∧
      (((writerReviewerLoop scores thr fuel i b bs).bestIdx = none ∧
          (writerReviewerLoop scores thr fuel i b bs).bestScore = -1) ∨
        ∃ j, j < (writerReviewerLoop scores thr fuel i b bs).iters ∧
          (writerReviewerLoop scores thr fuel i b bs).bestIdx = some j ∧
          (writerReviewerLoop scores thr fuel i b bs).bestScore = scores j) := by
  intro fuel
  induction fuel with
  | zero =>
    intro i b bs hub hbest
    refine ⟨hub, ?_⟩
    rcases hbest with h | ⟨j, hj, hb, hs⟩
    · exact Or.inl h
    · exact Or.inr ⟨j, hj, hb, hs⟩
  | succ fuel ih =>
    intro i b bs hub hbest
    have hub2 : ∀ j, j < i + 1 →
        scores j ≤ (if bs < scores i then scores i else bs) := by
      intro j hj
      split_ifs with hc
      · rcases Nat.lt_succ_iff_lt_or_eq.mp hj with hl | he
        · exact le_trans (hub j hl) (le_of_lt hc)
        · subst he; exact le_refl _
      · rcases Nat.lt_succ_iff_lt_or_eq.mp hj with hl | he
        · exact hub j hl
        · subst he; omega
    have hbest2 : ((if bs < scores i then some i else b) = none ∧
        (if bs < scores i then scores i else bs) = -1) ∨
        ∃ j, j < i + 1 ∧ (if bs < scores i then some i else b) = some j ∧
          (if bs < scores i then scores i else bs) = scores j := by
      split_ifs with hc
      · exact Or.inr ⟨i, by omega, rfl, rfl⟩
      · rcases hbest with ⟨hb, hs⟩ | ⟨j, hj, hb, hs⟩
        · exact Or.inl ⟨hb, hs⟩
        · exact Or.inr ⟨j, by omega, hb, hs⟩
    by_cases h : thr ≤ scores i
    · rw [loop_succ, if_pos h]
      exact ⟨hub2, hbest2⟩
    · rw [loop_succ, if_neg h]
      exact ih (i + 1) _ _ hub2 hbest2

theorem loop_runs_one (scores : Nat → Int) (thr : Int) :
    ∀ fuel i b bs, 0 < fuel →
      i + 1 ≤ (writerReviewerLoop scores thr fuel i b bs).iters := by
  intro fuel
  cases fuel with
  | zero => intro i b bs h; omega
  | succ fuel =>
    intro i b bs _
    by_cases h : thr ≤ scores i
    · rw [loop_succ, if_pos h]
    · rw [loop_succ, if_neg h]
      exact loop_iters_ge scores thr fuel (i + 1) _ _

/-- Claim C1: for every sequence of reviewer scores (scores are
reviewer outputs, hence nonnegative), the Writer/Reviewer loop runs at
most `max_iterations` iterations, every iteration before the last saw
a score below the threshold, an early exit happens exactly at the
first score meeting the threshold, and the loop leaves with the best
score seen and the index of the iteration that produced it.  With
scores [5, 9, 3], 3 allowed iterations and threshold 8 it stops after
iteration 2 with best score 9; with scores [4, 5], 2 iterations and
threshold 8 it runs exactly twice and keeps the iteration-2 output
with best score 5 rather than failing. -/
theorem orchestrator_loop_spec :
    ∀ (scores : Nat → Int) (maxIterations : Nat) (thr : Int),
      (∀ i, 0 ≤ scores i) →
      ((runWriterReviewerLoop scores maxIterations thr).iters ≤ maxIterations ∧
       (∀ j, j + 1 < (runWriterReviewerLoop scores maxIterations thr).iters →
         scores j < thr) ∧
       ((runWriterReviewerLoop scores maxIterations thr).iters < maxIterations →
         0 < (runWriterReviewerLoop scores maxIterations thr).iters ∧
           thr ≤ scores ((runWriterReviewerLoop scores maxIterations thr).iters - 1)) ∧
       (∀ j, j < (runWriterReviewerLoop scores maxIterations thr).iters →
         scores j ≤ (runWriterReviewerLoop scores maxIterations thr).bestScore) ∧
       (0 < maxIterations →
         ∃ j, j < (runWriterReviewerLoop scores maxIterations thr).iters ∧
           (runWriterReviewerLoop scores maxIterations thr).bestIdx = some j ∧
           (runWriterReviewerLoop scores maxIterations thr).bestScore = scores j)) ∧
      runWriterReviewerLoop (fun i => [5, 9, 3].getD i 0) 3 8 = ⟨some 1, 9, 2⟩ ∧
      runWriterReviewerLoop (fun i => [4, 5].getD i 0) 2 8 = ⟨some 1, 5, 2⟩ := by
  intro scores maxIterations thr hnn
  refine ⟨⟨?_, ?_, ?_, ?_, ?_⟩, rfl, rfl⟩
  · simpa using loop_iters_le scores thr maxIterations 0 none (-1)
  · intro j hj
    exact loop_below_thr scores thr maxIterations 0 none (-1) j (Nat.zero_le j) hj
  · intro hlt
    exact loop_early_stop scores thr maxIterations 0 none (-1) (by simpa using hlt)
  · intro j hj
    exact (loop_best scores thr maxIterations 0 none (-1)
      (fun j hj2 => absurd hj2 (Nat.not_lt_zero j)) (Or.inl ⟨rfl, rfl⟩)).1 j hj
  · intro hpos
    rcases (loop_best scores thr maxIterations 0 none (-1)
        (fun j hj2 => absurd hj2 (Nat.not_lt_zero j)) (Or.inl ⟨rfl, rfl⟩)).2 with
      ⟨_, hbs⟩ | ⟨j, hj, hb, hs⟩
    · exfalso
      have h1 := loop_runs_one scores thr maxIterations 0 none (-1) hpos
      have h2 := (loop_best scores thr maxIterations 0 none (-1)
        (fun j hj2 => absurd hj2 (Nat.not_lt_zero j)) (Or.inl ⟨rfl, rfl⟩)).1 0 (by omega)
      have h3 := hnn 0
      omega
    · exact ⟨j, hj, hb, hs⟩

/-- Witness for C1 at concrete inputs: a constant-5 reviewer with two
allowed iterations and threshold 8. -/
theorem orchestrator_loop_spec_witness :
    (runWriterReviewerLoop (fun _ => (5 : Int)) 2 8).iters ≤ 2 ∧
    runWriterReviewerLoop (fun i => [5, 9, 3].getD i 0) 3 8 = ⟨some 1, 9, 2⟩ :=
  ⟨(orchestrator_loop_spec (fun _ => 5) 2 8 (fun _ => by norm_num)).1.1,
   (orchestrator_loop_spec (fun _ => 5) 2 8 (fun _ => by norm_num)).2.1⟩

-- ---------------------------------------------------------------------------
-- Retriever (agents/retriever.py) and Researcher (agents/researcher.py)
-- ---------------------------------------------------------------------------

/-- A row of the embeddings table as selected by the semantic search
query.  The cosine similarity against the current query text is a
per-row value (the store computes it from the embeddings). -/
structure ERow where
  id : Nat
  hasEmbedding : Bool
  primaryCuisine : Option (List Nat)
  city : List Nat
  neighborhood : List Nat
  similarity : ℚ
  priceLevel : Option Int
  overallScore : Option Int
  safetyScore : Option Int
  servesVegetarian : Option Bool
  isWheelchairAccessible : Option Bool
  goodForGroups : Option Bool
deriving DecidableEq, Repr

/-- A row of the master attribute table as selected by the enrichment
query (nullable boolean flags and coordinates). -/
structure MRow where
  id : Nat
  latitude : Option ℚ
  longitude : Option ℚ
  servesBreakfast : Option Bool
  servesLunch : Option Bool
  servesDinner : Option Bool
  servesCoffee : Option Bool
  goodForChildren : Option Bool
  outdoorSeating : Option Bool
  takeout : Option Bool
  delivery : Option Bool
  allowsDogs : Option Bool
  liveMusic : Option Bool
deriving DecidableEq, Repr

/-- A merged candidate row after the left enrichment merge; columns
pulled from the master table are null when the id found no match. -/
structure CRow where
  id : Nat
  primaryCuisine : Option (List Nat)
  city : List Nat
  neighborhood : List Nat
  similarity : ℚ
  priceLevel : Option Int
  overallScore : Option Int
  safetyScore : Option Int
  servesVegetarian : Option Bool
  isWheelchairAccessible : Option Bool
  goodForGroups : Option Bool
  latitude : Option ℚ
  longitude : Option ℚ
  servesBreakfast : Option Bool
  servesLunch : Option Bool
  servesDinner : Option Bool
  servesCoffee : Option Bool
  goodForChildren : Option Bool
  outdoorSeating : Option Bool
  takeout : Option Bool
  delivery : Option Bool
  allowsDogs : Option Bool
  liveMusic : Option Bool
deriving DecidableEq, Repr

/-- A candidate row together with the derived distance column the
retriever may append (`DISTANCE_FROM_USER_MI`); null both when the
column was not added and when the row has no coordinates. -/
structure DRow where
  row : CRow
  distanceFromUser : Option ℚ
deriving DecidableEq, Repr

/-- The merge of one embeddings row with its (optional) master row,
mirroring `results_df.merge(detail_df, on=RESTAURANT_ID, how=left)`. -/
def mergeRow (e : ERow) (m : Option MRow) : CRow :=
  ⟨e.id, e.primaryCuisine, e.city, e.neighborhood, e.similarity, e.priceLevel,
   e.overallScore, e.safetyScore, e.servesVegetarian, e.isWheelchairAccessible,
   e.goodForGroups,
   (match m with | none => none | some mr => mr.latitude),
   (match m with | none => none | some mr => mr.longitude),
   (match m with | none => none | some mr => mr.servesBreakfast),
   (match m with | none => none | some mr => mr.servesLunch),
   (match m with | none => none | some mr => mr.servesDinner),
   (match m with | none => none | some mr => mr.servesCoffee),
   (match m with | none => none | some mr => mr.goodForChildren),
   (match m with | none => none | some mr => mr.outdoorSeating),
   (match m with | none => none | some mr => mr.takeout),
   (match m with | none => none | some mr => mr.delivery),
   (match m with | none => none | some mr => mr.allowsDogs),
   (match m with | none => none | some mr => mr.liveMusic)⟩

/-- The four location modes the analyst can emit (`mode` strings
`include_strict`, `exclude`, `include_nearby`, anything else). -/
inductive LocMode where
  | includeStrict : LocMode
  | exclude : LocMode
  | includeNearby : LocMode
  | noMode : LocMode
deriving DecidableEq, Repr

/-- `ILIKE` with no wildcard: case-insensitive equality. -/
def ilikeExact (col pat : List Nat) : Bool :=
  decide (lowerCodes col = lowerCodes pat)

/-- `ILIKE` with a trailing percent: case-insensitive starts-with. -/
def ilikeStartsWith (col pat : List Nat) : Bool :=
  isPrefixN (lowerCodes pat) (lowerCodes col)

/-- The title-cased location text interpolated into the query.  The
single-quote escaping applied by the source is undone again when the
store parses the quoted literal, so at row level the effective pattern
is the stripped, title-cased name. -/
def locPattern (location_name : List Nat) : List Nat :=
  titleCodes (stripCodes location_name)

/-- Row semantics of the cuisine condition:
`AND PRIMARY_CUISINE = (cuisine)` when the analyst extracted one. -/
def cuisineCond (cuisine : Option (List Nat)) (r : ERow) : Bool :=
  match cuisine with
  | none => true
  | some c => decide (r.primaryCuisine = some c)

/-- Row semantics of the location condition: city exact-match or
neighborhood starts-with, included positively for `include_strict`,
negated for `exclude`, absent otherwise (`include_nearby` adds no
store-side condition). -/
def locCond (location_name : Option (List Nat)) (mode : LocMode) (r : ERow) : Bool :=
  match location_name with
  | none => true
  | some nm =>
    match mode with
    | .includeStrict =>
      ilikeExact r.city (locPattern nm) || ilikeStartsWith r.neighborhood (locPattern nm)
    | .exclude =>
      !(ilikeExact r.city (locPattern nm) || ilikeStartsWith r.neighborhood (locPattern nm))
    | _ => true

/-- The similarity cutoff in the semantic search query
(`AND SIMILARITY_SCORE > 0.3`). -/
def simThreshold : ℚ := 3 / 10

/-- The WHERE clause of the semantic search. -/
def wherePred (cuisine location_name : Option (List Nat)) (mode : LocMode)
    (r : ERow) : Bool :=
  r.hasEmbedding && cuisineCond cuisine r && locCond location_name mode r &&
    decide (simThreshold < r.similarity)

/-- Descending similarity, the `ORDER BY SIMILARITY_SCORE DESC`. -/
def simDesc (a b : ERow) : Bool := decide (b.similarity ≤ a.similarity)

/-- The semantic search: filter, order by similarity descending, cap
at `top_k` (`LIMIT`). -/
def semanticSearch (table : List ERow) (cuisine location_name : Option (List Nat))
    (mode : LocMode) (top_k : Nat) : List ERow :=
  (sortOrd simDesc (table.filter (wherePred cuisine location_name mode))).take top_k

/-- The pandas left merge on RESTAURANT_ID: every left row is kept; a
left row joins each matching right row, or survives unmatched with
null enrichment columns. -/
def leftMergeDetail (left : List ERow) (detail : List MRow) : List CRow :=
  left.flatMap fun l =>
    match detail.filter (fun m => decide (m.id = l.id)) with
    | [] => [mergeRow l none]
    | ms => ms.map (fun m => mergeRow l (some m))

/-- Ascending distance with nulls last, the
`sort_values(DISTANCE_FROM_USER_MI)` ordering. -/
def distAsc (a b : DRow) : Bool :=
  match a.distanceFromUser, b.distanceFromUser with
  | some x, some y => decide (x ≤ y)
  | some _, none => true
  | none, some _ => false
  | none, none => true

/-- Appending the distance column to one row: rows with no coordinates
get no distance (not zero, not dropped).  The haversine itself is an
abstract parameter `dist` since its trigonometric value is irrelevant
here; see `calculate_haversine_distance` in `utils/geo_utils.py`. -/
def withDistance (loc : ℚ × ℚ) (dist : ℚ × ℚ → ℚ × ℚ → ℚ) (r : CRow) : DRow :=
  ⟨r, match r.latitude, r.longitude with
      | some la, some lo => some (dist loc (la, lo))
      | _, _ => none⟩

/-- The enrichment merge: the semantic-search results are left-merged
with the master rows whose RESTAURANT_ID occurs among the results (the
`WHERE RESTAURANT_ID IN (...)` detail query). -/
def enrichedRows (table : List ERow) (master : List MRow)
    (cuisine location_name : Option (List Nat)) (mode : LocMode) (top_k : Nat) :
    List CRow :=
  leftMergeDetail (semanticSearch table cuisine location_name mode top_k)
    (master.filter fun m =>
      ((semanticSearch table cuisine location_name mode top_k).map
        (fun r => r.id)).contains m.id)

/-- `retriever_agent` row pipeline: semantic search, enrichment merge,
then the optional distance computation and sort (skipped in nearby
mode, and when no user location is known). -/
def retrieverRows (table : List ERow) (master : List MRow)
    (cuisine location_name : Option (List Nat)) (mode : LocMode) (top_k : Nat)
    (userLoc : Option (ℚ × ℚ)) (dist : ℚ × ℚ → ℚ × ℚ → ℚ) : List DRow :=
  if mode = .includeNearby ∧ location_name.isSome then
    (enrichedRows table master cuisine location_name mode top_k).map (fun r => ⟨r, none⟩)
  else
    match userLoc with
    | none =>
      (enrichedRows table master cuisine location_name mode top_k).map (fun r => ⟨r, none⟩)
    | some loc =>
      sortOrd distAsc
        ((enrichedRows table master cuisine location_name mode top_k).map
          (withDistance loc dist))

/-- Membership of a token in a FilterSet slot. -/
def hasTok (slot : List (List Nat)) (s : String) : Bool :=
  slot.contains (pycodes s)

/-- The price ceiling step of `researcher_agent`: active only when the
UI value is not Any; rows whose numeric price level is missing
(coerced to NaN) are dropped by the comparison. -/
def priceFilter (maxPrice : Option Int) (rows : List DRow) : List DRow :=
  match maxPrice with
  | none => rows
  | some m =>
    rows.filter fun r =>
      match r.row.priceLevel with
      | some p => decide (p ≤ m)
      | none => false

/-- The safety floor step: active only when `min_safety > 0`. -/
def safetyFilter (minSafety : Int) (rows : List DRow) : List DRow :=
  if 0 < minSafety then
    rows.filter fun r =>
      match r.row.safetyScore with
      | some s => decide (minSafety ≤ s)
      | none => false
  else rows

/-- One conditional boolean-attribute step:
`if token-present: df = df[df[col] == True]`. -/
def boolFilter (cond : Bool) (p : DRow → Bool) (rows : List DRow) : List DRow :=
  if cond then rows.filter p else rows

/-- The attribute filter chain of `researcher_agent`, in source order.
The reservations step is omitted because the merged schema carries no
RESERVABLE column, so its column-presence guard is always false. -/
def attributeFilterChain (f : FilterSet) (rows : List DRow) : List DRow :=
  boolFilter (hasTok f.special_needs "live_music")
    (fun r => decide (r.row.liveMusic = some true))
    (boolFilter (hasTok f.special_needs "pet_friendly" || hasTok f.special_needs "dogs")
      (fun r => decide (r.row.allowsDogs = some true))
      (boolFilter (hasTok f.special_needs "coffee_shop" || hasTok f.special_needs "cafe")
        (fun r => decide (r.row.servesCoffee = some true))
        (boolFilter (hasTok f.service_type "delivery")
          (fun r => decide (r.row.delivery = some true))
          (boolFilter (hasTok f.service_type "takeout")
            (fun r => decide (r.row.takeout = some true))
            (boolFilter (hasTok f.service_type "outdoor")
              (fun r => decide (r.row.outdoorSeating = some true))
              (boolFilter (hasTok f.accessibility "children" ||
                  hasTok f.accessibility "kids" || hasTok f.accessibility "family")
                (fun r => decide (r.row.goodForChildren = some true))
                (boolFilter (hasTok f.accessibility "groups" || hasTok f.accessibility "group")
                  (fun r => decide (r.row.goodForGroups = some true))
                  (boolFilter (hasTok f.accessibility "wheelchair")
                    (fun r => decide (r.row.isWheelchairAccessible = some true))
                    (boolFilter (hasTok f.meal_time "dinner")
                      (fun r => decide (r.row.servesDinner = some true))
                      (boolFilter (hasTok f.meal_time "lunch")
                        (fun r => decide (r.row.servesLunch = some true))
                        (boolFilter (hasTok f.meal_time "breakfast")
                          (fun r => decide (r.row.servesBreakfast = some true))
                          (boolFilter (hasTok f.dietary "vegetarian" || hasTok f.dietary "vegan")
                            (fun r => decide (r.row.servesVegetarian = some true))
                            rows))))))))))))

/-- All hard filters of `researcher_agent`, in source order: price,
then safety, then the attribute chain (after normalizing the filters
argument). -/
def researcherFilters (maxPrice : Option Int) (minSafety : Int)
    (attribute_filters : Option RawFilters) (rows : List DRow) : List DRow :=
  attributeFilterChain (normalizeAttributeFilters attribute_filters)
    (safetyFilter minSafety (priceFilter maxPrice rows))

/-- Descending overall score with nulls last, the final
`sort_values(OVERALL_SCORE, ascending=False)`. -/
def overallDesc (a b : DRow) : Bool :=
  match a.row.overallScore, b.row.overallScore with
  | some x, some y => decide (y ≤ x)
  | some _, none => true
  | none, some _ => false
  | none, none => true

/-- The researcher row pipeline: filters, the zero-result branch
(which returns a null payload, i.e. no rows), else the score sort. -/
def researcherRows (maxPrice : Option Int) (minSafety : Int)
    (attribute_filters : Option RawFilters) (rows : List DRow) : List DRow :=
  if (researcherFilters maxPrice minSafety attribute_filters rows).length = 0 then []
  else sortOrd overallDesc (researcherFilters maxPrice minSafety attribute_filters rows)

theorem priceFilter_length_le (maxPrice : Option Int) (rows : List DRow) :
    (priceFilter maxPrice rows).length ≤ rows.length := by
  cases maxPrice with
  | none => exact Nat.le_refl _
  | some m => exact List.length_filter_le _ _

theorem safetyFilter_length_le (minSafety : Int) (rows : List DRow) :
    (safetyFilter minSafety rows).length ≤ rows.length := by
  unfold safetyFilter
  split_ifs with h
  · exact List.length_filter_le _ _
  · exact Nat.le_refl _

theorem boolFilter_length_le (cond : Bool) (p : DRow → Bool) (rows : List DRow) :
    (boolFilter cond p rows).length ≤ rows.length := by
  unfold boolFilter
  split_ifs with h
  · exact List.length_filter_le _ _
  · exact Nat.le_refl _

theorem attributeFilterChain_length_le (f : FilterSet) (rows : List DRow) :
    (attributeFilterChain f rows).length ≤ rows.length := by
  unfold attributeFilterChain
  apply le_trans (boolFilter_length_le _ _ _)
  apply le_trans (boolFilter_length_le _ _ _)
  apply le_trans (boolFilter_length_le _ _ _)
  apply le_trans (boolFilter_length_le _ _ _)
  apply le_trans (boolFilter_length_le _ _ _)
  apply le_trans (boolFilter_length_le _ _ _)
  apply le_trans (boolFilter_length_le _ _ _)
  apply le_trans (boolFilter_length_le _ _ _)
  apply le_trans (boolFilter_length_le _ _ _)
  apply le_trans (boolFilter_length_le _ _ _)
  apply le_trans (boolFilter_length_le _ _ _)
  apply le_trans (boolFilter_length_le _ _ _)
  exact boolFilter_length_le _ _ _

theorem researcherFilters_length_le (maxPrice : Option Int) (minSafety : Int)
    (attribute_filters : Option RawFilters) (rows : List DRow) :
    (researcherFilters maxPrice minSafety attribute_filters rows).length ≤ rows.length := by
  unfold researcherFilters
  apply le_trans (attributeFilterChain_length_le _ _)
  apply le_trans (safetyFilter_length_le _ _)
  exact priceFilter_length_le _ _

theorem researcherRows_length_le (maxPrice : Option Int) (minSafety : Int)
    (attribute_filters : Option RawFilters) (rows : List DRow) :
    (researcherRows maxPrice minSafety attribute_filters rows).length ≤ rows.length := by
  unfold researcherRows
  split_ifs with h
  · exact Nat.zero_le _
  · rw [sortOrd_length]
    exact researcherFilters_length_le _ _ _ _

/-- Under a duplicate-free key column, each id matches at most one
master row. -/
theorem filter_id_length_le_one (detail : List MRow)
    (h : detail.Pairwise (fun a b => a.id ≠ b.id)) (x : Nat) :
    (detail.filter (fun m => decide (m.id = x))).length ≤ 1 := by
  cases hf : detail.filter (fun m => decide (m.id = x)) with
  | nil => simp
  | cons m ms =>
    cases ms with
    | nil => simp
    | cons m2 ms2 =>
      exfalso
      have hp2 : (detail.filter (fun m => decide (m.id = x))).Pairwise
          (fun a b => a.id ≠ b.id) :=
        List.Pairwise.sublist (List.filter_sublist detail) h
      rw [hf] at hp2
      have hne : m.id ≠ m2.id := (List.pairwise_cons.mp hp2).1 m2 (by simp)
      have hm : m ∈ detail.filter (fun m => decide (m.id = x)) := by rw [hf]; simp
      have hm2 : m2 ∈ detail.filter (fun m => decide (m.id = x)) := by rw [hf]; simp
      have e1 : m.id = x := of_decide_eq_true (List.mem_filter.mp hm).2
      have e2 : m2.id = x := of_decide_eq_true (List.mem_filter.mp hm2).2
      exact hne (e1.trans e2.symm)

/-- With a duplicate-free master key, the left merge neither drops nor
multiplies rows. -/
theorem leftMergeDetail_length (left : List ERow) (detail : List MRow)
    (h : detail.Pairwise (fun a b => a.id ≠ b.id)) :
    (leftMergeDetail left detail).length = left.length := by
  induction left with
  | nil => rfl
  | cons l ls ih =>
    have e : leftMergeDetail (l :: ls) detail =
        (match detail.filter (fun m => decide (m.id = l.id)) with
         | [] => [mergeRow l none]
         | ms => ms.map (fun m => mergeRow l (some m))) ++ leftMergeDetail ls detail := by
      unfold leftMergeDetail
      rw [List.flatMap_cons]
    rw [e, List.length_append, ih]
    have h1 := filter_id_length_le_one detail h l.id
    cases hf : detail.filter (fun m => decide (m.id = l.id)) with
    | nil =>
      show 1 + ls.length = ls.length + 1
      omega
    | cons m ms =>
      rw [hf] at h1
      have hms : ms = [] := by
        cases ms with
        | nil => rfl
        | cons a b => simp at h1
      subst hms
      show 1 + ls.length = ls.length + 1
      omega

theorem enrichedRows_length_le (table : List ERow) (master : List MRow)
    (cuisine location_name : Option (List Nat)) (mode : LocMode) (top_k : Nat)
    (h : master.Pairwise (fun a b => a.id ≠ b.id)) :
    (enrichedRows table master cuisine location_name mode top_k).length ≤ top_k := by
  unfold enrichedRows
  rw [leftMergeDetail_length _ _
    (List.Pairwise.sublist (List.filter_sublist master) h)]
  unfold semanticSearch
  exact List.length_take_le _ _

theorem retrieverRows_length_le (table : List ERow) (master : List MRow)
    (cuisine location_name : Option (List Nat)) (mode : LocMode) (top_k : Nat)
    (userLoc : Option (ℚ × ℚ)) (dist : ℚ × ℚ → ℚ × ℚ → ℚ)
    (h : master.Pairwise (fun a b => a.id ≠ b.id)) :
    (retrieverRows table master cuisine location_name mode top_k userLoc dist).length ≤
      top_k := by
  unfold retrieverRows
  split_ifs with hc
  · rw [List.length_map]
    exact enrichedRows_length_le table master cuisine location_name mode top_k h
  · cases userLoc with
    | none =>
      rw [List.length_map]
      exact enrichedRows_length_le table master cuisine location_name mode top_k h
    | some loc =>
      rw [sortOrd_length, List.length_map]
      exact enrichedRows_length_le table master cuisine location_name mode top_k h

/-- Claim C7: with the master attribute table keyed by restaurant id
(at most one row per id, as for a dimension table), the row count is
monotonically non-increasing through the pipeline: the researcher
output has at most as many rows as the retriever output, which has at
most `top_k` rows — including after the enrichment merge and the
optional distance sort. -/
theorem pipeline_row_count_monotone :
    ∀ (table : List ERow) (master : List MRow)
      (cuisine location_name : Option (List Nat)) (mode : LocMode) (top_k : Nat)
      (userLoc : Option (ℚ × ℚ)) (dist : ℚ × ℚ → ℚ × ℚ → ℚ)
      (maxPrice : Option Int) (minSafety : Int)
      (attribute_filters : Option RawFilters),
      master.Pairwise (fun a b => a.id ≠ b.id) →
      (researcherRows maxPrice minSafety attribute_filters
          (retrieverRows table master cuisine location_name mode top_k userLoc dist)).length ≤
        (retrieverRows table master cuisine location_name mode top_k userLoc dist).length ∧
      (retrieverRows table master cuisine location_name mode top_k userLoc dist).length ≤
        top_k := by
  intro table master cuisine location_name mode top_k userLoc dist maxPrice
    minSafety attribute_filters h
  exact ⟨researcherRows_length_le _ _ _ _,
    retrieverRows_length_le table master cuisine location_name mode top_k userLoc dist h⟩

/-- Witness for C7 at a concrete input: empty store tables. -/
theorem pipeline_row_count_monotone_witness :
    (retrieverRows [] [] none none .noMode 20 none (fun _ _ => 0)).length ≤ 20 :=
  (pipeline_row_count_monotone [] [] none none .noMode 20 none (fun _ _ => 0)
    none 0 none (List.Pairwise.nil)).2

/-- A candidate row carrying only a price tier, as in the price-filter
scenario of the spec (all other columns null/default). -/
def mkTestRow (i : Nat) (tier : Int) : DRow :=
  ⟨⟨i, none, [], [], 0, some tier, none, none, none, none, none, none, none,
    none, none, none, none, none, none, none, none, none, none⟩, none⟩

/-- The 10-row CandidateSet with price tiers [1,2,3,4,2,1,3,4,2,1]. -/
def c3Rows : List DRow :=
  [mkTestRow 0 1, mkTestRow 1 2, mkTestRow 2 3, mkTestRow 3 4, mkTestRow 4 2,
   mkTestRow 5 1, mkTestRow 6 3, mkTestRow 7 4, mkTestRow 8 2, mkTestRow 9 1]

/-- Claim C3, counterexample: with tiers [1,2,3,4,2,1,3,4,2,1] and
`max_price = 2` the price filter leaves 6 rows (the tiers ≤ 2 are at
positions 0, 1, 4, 5, 8, 9), not the 5 rows the claim states. -/
theorem price_filter_counterexample :
    (priceFilter (some 2) c3Rows).length = 6 ∧
    (priceFilter (some 2) c3Rows).length ≠ 5 := by
  exact ⟨by decide, by decide⟩

/-- Claim C3, amended: the price filter leaves exactly the 6 rows
whose tier is ≤ 2, keeping their relative order; in general the price
filter output is always an order-preserving sublist of its input. -/
theorem price_filter_spec :
    priceFilter (some 2) c3Rows =
      [mkTestRow 0 1, mkTestRow 1 2, mkTestRow 4 2, mkTestRow 5 1,
       mkTestRow 8 2, mkTestRow 9 1] ∧
    ∀ (m : Int) (rows : List DRow), (priceFilter (some m) rows).Sublist rows := by
  refine ⟨by decide, fun m rows => ?_⟩
  unfold priceFilter
  exact List.filter_sublist rows

-- ---------------------------------------------------------------------------
-- Query string composition in the retriever (the injection boundary)
-- ---------------------------------------------------------------------------

/-- The cuisine condition string composed by `retriever_agent`:
`AND PRIMARY_CUISINE = (quoted cuisine)` with the analyst-extracted
cuisine interpolated RAW (code 39 is the single quote). -/
def cuisineCondition (cuisine : Option (List Nat)) : List Nat :=
  match cuisine with
  | none => []
  | some c => pycodes "AND PRIMARY_CUISINE = " ++ [39] ++ c ++ [39]

/-- The location text as interpolated: escaped, stripped, title-cased
(`location_name.replace(quote, two quotes).strip().title()`). -/
def locTitleEscaped (location_name : List Nat) : List Nat :=
  titleCodes (stripCodes (escapeQuotes location_name))

/-- `CITY ILIKE (quoted location)`. -/
def cityExactCondition (location_name : List Nat) : List Nat :=
  pycodes "CITY ILIKE " ++ [39] ++ locTitleEscaped location_name ++ [39]

/-- `NEIGHBORHOOD ILIKE (quoted location + percent)`. -/
def neighborhoodLikeCondition (location_name : List Nat) : List Nat :=
  pycodes "NEIGHBORHOOD ILIKE " ++ [39] ++ locTitleEscaped location_name ++
    pycodes "%" ++ [39]

/-- The quoted literal passed to the embedding function:
`(quote)(escaped user query)(quote)`. -/
def embedQueryLiteral (user_query : List Nat) : List Nat :=
  [39] ++ escapeQuotes user_query ++ [39]

theorem escapeQuotes_count (s : List Nat) :
    (escapeQuotes s).count 39 = 2 * s.count 39 := by
  induction s with
  | nil => rfl
  | cons c t ih =>
    show ((if c = 39 then [39, 39] else [c]) ++ escapeQuotes t).count 39 = _
    rw [List.count_append, ih]
    by_cases hc : c = 39
    · subst hc
      simp [List.count_cons]
      omega
    · simp [List.count_cons, hc]

/-- An analyst-extracted cuisine value containing a single quote. -/
def quoteCuisine : List Nat := pycodes "O" ++ [39] ++ pycodes "Brien"

/-- Claim C8 (code bug): the cuisine value is interpolated into the
store query UNESCAPED.  At the cuisine OBrien-with-a-quote the
composed fragment keeps the raw quote — three quote characters in
total, an unbalanced literal — and differs from the escaped
composition; by contrast the free-text query literal and the location
text are built through the quote-doubling escape. -/
theorem cuisine_interpolation_unescaped :
    cuisineCondition (some quoteCuisine) =
      pycodes "AND PRIMARY_CUISINE = " ++ [39] ++ quoteCuisine ++ [39] ∧
    cuisineCondition (some quoteCuisine) ≠
      pycodes "AND PRIMARY_CUISINE = " ++ [39] ++ escapeQuotes quoteCuisine ++ [39] ∧
    (cuisineCondition (some quoteCuisine)).count 39 = 3 ∧
    (∀ q, (embedQueryLiteral q).count 39 = 2 * q.count 39 + 2) ∧
    (∀ nm, locTitleEscaped nm = titleCodes (stripCodes (escapeQuotes nm))) := by
  refine ⟨rfl, by decide, by decide, fun q => ?_, fun nm => rfl⟩
  show ([39] ++ (escapeQuotes q ++ [39])).count 39 = _
  rw [List.count_append, List.count_append, escapeQuotes_count]
  simp [List.count_cons]
  omega

-- ---------------------------------------------------------------------------
-- Geocoding (utils/geo_utils.py)
-- ---------------------------------------------------------------------------

/-- The BOSTON_NEIGHBORHOODS table from `config.py`, in insertion
order: name substring, latitude, longitude. -/
def bostonNeighborhoods : List (List Nat × ℚ × ℚ) :=
  [(pycodes "jamaica plain", (423099 : ℚ) / 10000, -(711111 : ℚ) / 10000),
   (pycodes "centre street", (423099 : ℚ) / 10000, -(711111 : ℚ) / 10000),
   (pycodes "center street", (423099 : ℚ) / 10000, -(711111 : ℚ) / 10000),
   (pycodes "roxbury", (423317 : ℚ) / 10000, -(710828 : ℚ) / 10000),
   (pycodes "dorchester", (422876 : ℚ) / 10000, -(710662 : ℚ) / 10000),
   (pycodes "south end", (423417 : ℚ) / 10000, -(710719 : ℚ) / 10000),
   (pycodes "north end", (423647 : ℚ) / 10000, -(710542 : ℚ) / 10000),
   (pycodes "back bay", (423503 : ℚ) / 10000, -(710810 : ℚ) / 10000),
   (pycodes "allston", (423528 : ℚ) / 10000, -(711319 : ℚ) / 10000),
   (pycodes "brighton", (423486 : ℚ) / 10000, -(711656 : ℚ) / 10000),
   (pycodes "charlestown", (423782 : ℚ) / 10000, -(710602 : ℚ) / 10000),
   (pycodes "cambridge", (423736 : ℚ) / 10000, -(711097 : ℚ) / 10000),
   (pycodes "somerville", (423876 : ℚ) / 10000, -(710995 : ℚ) / 10000)]

/-- DEFAULT_BOSTON_LAT from `config.py`. -/
def defaultBostonLat : ℚ := (423601 : ℚ) / 10000

/-- DEFAULT_BOSTON_LON from `config.py`. -/
def defaultBostonLon : ℚ := -(710589 : ℚ) / 10000

/-- The dict `geocode_location` returns. -/
structure GeoResult where
  latitude : ℚ
  longitude : ℚ
  name : List Nat
deriving DecidableEq, Repr

/-- `geocode_location` from `utils/geo_utils.py`: the first
neighborhood whose key occurs as a substring of the lowercased name
wins; a name matching nothing gets the default Boston coordinates.
The function never returns null. -/
def geocodeLocation (location_name : List Nat) : GeoResult :=
  match bostonNeighborhoods.find?
      (fun p => containsSeq p.1 (lowerCodes location_name)) with
  | some p => ⟨p.2.1, p.2.2, location_name⟩
  | none => ⟨defaultBostonLat, defaultBostonLon, location_name⟩

/-- Claim C9, counterexample: the place name new york city matches no
Boston neighborhood, yet `geocode_location` returns the default Boston
coordinate record — coordinates, not null. -/
theorem geocode_unknown_counterexample :
    bostonNeighborhoods.find?
      (fun p => containsSeq p.1 (lowerCodes (pycodes "new york city"))) = none ∧
    geocodeLocation (pycodes "new york city") =
      ⟨defaultBostonLat, defaultBostonLon, pycodes "new york city"⟩ := by
  exact ⟨by decide, rfl⟩

/-- Claim C9, amended: `geocode_location` is total and never returns
null: a name containing a known Boston neighborhood substring gets
that neighborhood coordinates, and any other name gets the default
Boston coordinates (42.3601, -71.0589) with the input name echoed
back.  (The null-returning rejection the spec describes lives in
`geocode_with_llm` in `utils/smart_location_handler.py`, not here.) -/
theorem geocode_default_spec :
    (∀ name,
      bostonNeighborhoods.find? (fun p => containsSeq p.1 (lowerCodes name)) = none →
      geocodeLocation name = ⟨defaultBostonLat, defaultBostonLon, name⟩) ∧
    geocodeLocation (pycodes "Roxbury MA") =
      ⟨(423317 : ℚ) / 10000, -(710828 : ℚ) / 10000, pycodes "Roxbury MA"⟩ := by
  refine ⟨fun name h => ?_, rfl⟩
  unfold geocodeLocation
  rw [h]

/-- Witness for the amended C9 statement at a concrete unknown name. -/
theorem geocode_default_spec_witness :
    geocodeLocation (pycodes "zzz") =
      ⟨defaultBostonLat, defaultBostonLon, pycodes "zzz"⟩ :=
  geocode_default_spec.1 (pycodes "zzz") (by decide)
